import Mathlib

/-!
A verification development for the `snarc` archive-manifest library.

The definitions below are a shallow embedding of the Rust sources:
machine integers become `Nat` with explicit `% 2 ^ 64` where 64-bit
overflow matters, reference-counted table cells become plain values (the
claims settled here observe only cell contents, never cell identity),
`BTreeMap` becomes an ordered association list, and fallible or panicking
code returns `Option` (with `none` standing for a panic or an error
abort, as noted at each definition).
-/

namespace Snarc

/-- `INVALID_INDEX` (lib.rs): the 24-bit all-ones invalid-index sentinel. -/
def INVALID_INDEX : Nat := 0xFFFFFF

/-- `INVALID_INDEX32` (lib.rs): the same sentinel as a `u32`. -/
def INVALID_INDEX32 : Nat := INVALID_INDEX

/-- `HASH_MASK` (lib.rs): the low-40-bit mask of a `HashKey` word. -/
def HASH_MASK : Nat := 0xFFFFFFFFFF

/-- `!HASH_MASK` as a 64-bit word (the index half of a `HashKey`). -/
def NOT_HASH_MASK : Nat := 0xFFFFFF0000000000

namespace HashKey

/-- `HashKey::new` (engines/mod.rs): `Self(hash.0 | (index as u64) << 40)`.
The shift is a 64-bit shift, so any bits pushed past bit 63 are discarded;
the embedding makes that explicit with `% 2 ^ 64`. -/
def new (hash index : Nat) : Nat := hash ||| (index <<< 40) % 2 ^ 64

/-- `HashKey::hash` (engines/mod.rs): `Hash40(self.0 & HASH_MASK)`. -/
def hash (k : Nat) : Nat := k &&& HASH_MASK

/-- `HashKey::index` (engines/mod.rs): `(self.0 & !HASH_MASK) as usize >> 40`. -/
def index (k : Nat) : Nat := (k &&& NOT_HASH_MASK) >>> 40

/-- `HashKey::set_hash` (engines/mod.rs): `self.0 = (self.0 & !HASH_MASK) | hash.0`. -/
def set_hash (k h : Nat) : Nat := (k &&& NOT_HASH_MASK) ||| h

/-- `HashKey::set_index` (engines/mod.rs):
`self.0 = (self.0 & HASH_MASK) | (index as u64) << 40` (64-bit shift). -/
def set_index (k i : Nat) : Nat := (k &&& HASH_MASK) ||| (i <<< 40) % 2 ^ 64

end HashKey

namespace VersionedFile

/-- The first `u64` emitted by `VersionedFile`'s `BinWrite` impl
(engines/packaged/types.rs): `HashKey::new(self.path, if self.changed_this_patch
{ 0x0 } else { 1 << 24 })`. -/
def write_key (path : Nat) (changed_this_patch : Bool) : Nat :=
  HashKey.new path (if changed_this_patch then 0x0 else 1 <<< 24)

/-- The `changed_this_patch` field computed by the `binread` of `VersionedFile`
(engines/packaged/types.rs): `path_and_changed.index() == 0`. -/
def parse_changed (path_and_changed : Nat) : Bool :=
  HashKey.index path_and_changed == 0

end VersionedFile

/-- The fields of a `StreamPath` produced by its `binread` impl
(engines/stream/types.rs); the `links` contiguous reference is kept as its
unresolved `(start, count)` range, whose count is the number of links it
resolves to. -/
structure StreamPathParsed where
  full_path : Nat
  links_start : Nat
  links_count : Nat
  is_localized : Bool
  is_regional : Bool
deriving DecidableEq

/-- Outcome of parsing one `StreamPath` record. `panicked` models the
`unreachable!()` arm of the `links` calc; `formatError` is the outcome the
specification text promises for an unknown flag word (a recoverable
`binrw` format error), which the code never produces on this path. -/
inductive StreamPathReadOutcome where
  | ok (path : StreamPathParsed)
  | panicked
  | formatError
deriving DecidableEq

namespace StreamPath

/-- The `binread` of `StreamPath` (engines/stream/types.rs): the link-count
match `0x0 => 1, 0x1 => 14, 0x2 => 5, _ => unreachable!()`, together with the
flag-bit fields `is_localized = flags & 1 != 0` and `is_regional = flags & 2 != 0`. -/
def read (path_and_link flags : Nat) : StreamPathReadOutcome :=
  let count? : Option Nat :=
    if flags = 0x0 then some 1
    else if flags = 0x1 then some 14
    else if flags = 0x2 then some 5
    else none
  match count? with
  | some count =>
      .ok { full_path := HashKey.hash path_and_link
            links_start := HashKey.index path_and_link
            links_count := count
            is_localized := flags &&& 0x1 != 0
            is_regional := flags &&& 0x2 != 0 }
  | none => .panicked

/-- The link count of a parse outcome, when parsing succeeded. -/
def links_len : StreamPathReadOutcome → Option Nat
  | .ok p => some p.links_count
  | _ => none

end StreamPath

/-- `LinkOwnerReference` after a successful resolve (engines/packaged/types.rs);
a resolved cell is modelled by its payload taken from the table it was
cloned out of. -/
inductive LinkOwnerResolved where
  | Package (cell : Nat)
  | Group (cell : Nat)
deriving DecidableEq

namespace LinkOwnerReference

/-- `LinkOwnerReference::resolve` (engines/packaged/types.rs):
`if index < packages.len() { Package(packages[index]) } else { Group(groups[index]) }`.
An out-of-bounds index panics, modelled by `none`. -/
def resolve (index : Nat) (packages groups : List Nat) : Option LinkOwnerResolved :=
  if index < packages.length then (packages[index]?).map .Package
  else (groups[index]?).map .Group

end LinkOwnerReference

/-- `GroupSubPackageReference` (engines/packaged/types.rs), an optional
multi-variant reference; resolved cells are modelled by their payloads. -/
inductive GroupSubPackageReference where
  | none
  | Package (cell : Nat)
  | Group (cell : Nat)
  | Unresolved (index : Nat)
deriving DecidableEq

namespace GroupSubPackageReference

/-- `is_none` of the reference (table.rs `multi_reference!` expansion). -/
def is_none : GroupSubPackageReference → Bool
  | .none => true
  | _ => false

/-- `GroupSubPackageReference::resolve` (engines/packaged/types.rs): an
unresolved index resolves to `None` when zero, a package cell when below the
package count, and otherwise the group cell at the raw index; it returns the
raw index it consumed. Out-of-bounds indexing panics, modelled by `none`. -/
def resolve (r : GroupSubPackageReference) (packages groups : List Nat) :
    Option (GroupSubPackageReference × Option Nat) :=
  match r with
  | .Unresolved index =>
      if index = 0 then some (.none, some index)
      else if index < packages.length then
        (packages[index]?).map fun c => (.Package c, some index)
      else
        (groups[index]?).map fun c => (.Group c, some index)
  | other => some (other, Option.none)

end GroupSubPackageReference

namespace Group

/-- The `sub_package` field map of the `binread` of `Group`
(engines/packaged/types.rs): the `0xFFFFFF` sentinel reads as `None`,
anything else as `Unresolved(index)`. -/
def read_sub_package (index : Nat) : GroupSubPackageReference :=
  if index = INVALID_INDEX32 then .none else .Unresolved index

/-- The classification fragment of `Group::resolve` (engines/packaged/types.rs):
resolve `sub_package`, then
`is_info_group = match sub_index { Some(i) => i == 0 || i == self_index, None => false }`.
Returns the computed `is_info_group` flag together with the resolved
`sub_package` reference. -/
def resolve_classify (sub_package_raw self_index : Nat) (packages groups : List Nat) :
    Option (Bool × GroupSubPackageReference) :=
  ((read_sub_package sub_package_raw).resolve packages groups).map fun p =>
    (match p.2 with
     | some i => i == 0 || i == self_index
     | Option.none => false, p.1)

/-- `Group::is_version_group` (engines/packaged/types.rs), evaluated on the
post-resolve state: `self.files.is_info() && self.sub_package.is_none()`.
The first conjunct is the `is_info_group` classification computed during
resolve, which selects the `Info` files variant. -/
def is_version_after_resolve (is_info_group : Bool) (r : GroupSubPackageReference) : Bool :=
  is_info_group && r.is_none

end Group

/-- The classification the claim text states: a group is an info-group iff
its `sub_package` is `None` or self-referential, where both the parse-time
`0xFFFFFF` sentinel and a raw index of zero count as absent. -/
def claimInfoGroup (sub_package_raw self_index : Nat) : Bool :=
  sub_package_raw == INVALID_INDEX32 || sub_package_raw == 0 ||
    sub_package_raw == self_index

/-- A `SearchPath` as the claims observe it (engines/search/types.rs).
The optional `folder` reference is modelled by its presence flag (the writer
only inspects `folder.is_none()`), and the optional `next` reference by the
final table index the writer would emit for it (`args.paths.get_index`). -/
structure SearchPath where
  full_path : Nat
  parent : Nat
  name : Nat
  extension : Nat
  is_folder : Bool
  next_index : Option Nat
deriving DecidableEq

namespace SearchPath

/-- The `BinWrite` impl of `SearchPath` (engines/search/types.rs), as the list
of the four little-endian `u64` words it emits:
`HashKey::new(full_path, next_index)`, then
`HashKey::new(self.full_path, is_folder)` (the source writes `full_path`
here, in the slot the reader treats as the parent hash), then `name`,
then `extension`. -/
def write_options (p : SearchPath) : List Nat :=
  let next_index := match p.next_index with
    | Option.none => INVALID_INDEX
    | some i => i
  let is_folder := if p.is_folder = false then 0x0 else 0x400000
  [HashKey.new p.full_path next_index,
   HashKey.new p.full_path is_folder,
   p.name, p.extension]

/-- The `binread` of `SearchPath` (engines/search/types.rs) on a record of
four `u64` words: `full_path` and the `next` index from the first word,
`parent` and the folder bit (`index & 0x400000`) from the second. -/
def read_options (w : List Nat) : Option SearchPath :=
  match w with
  | [path_and_next_index, parent_and_is_folder, name, extension] =>
      some { full_path := HashKey.hash path_and_next_index
             parent := HashKey.hash parent_and_is_folder
             name := name
             extension := extension
             is_folder := HashKey.index parent_and_is_folder &&& 0x400000 != 0
             next_index :=
               if HashKey.index path_and_next_index = INVALID_INDEX then Option.none
               else some (HashKey.index path_and_next_index) }
  | _ => Option.none

end SearchPath

/-- Modelled from the spec: `hash40(str) -> u40` is the library's opaque
40-bit string-hash collaborator (spec section 6); none of the claims settled
here depend on its concrete values, only on it being a deterministic function
into 40 bits, so it is modelled as a polynomial hash of the character
codes, reduced mod `2 ^ 40`. -/
def hash40 (s : List Char) : Nat :=
  s.foldl (fun acc c => (acc * 1000003 + c.toNat) % 2 ^ 40) 0

/-- Ordered-map insertion for the association-list model of `BTreeMap`:
keeps keys strictly sorted and replaces the value on an equal key. -/
def btreeInsert {α : Type} (k : Nat) (v : α) : List (Nat × α) → List (Nat × α)
  | [] => [(k, v)]
  | (k', v') :: rest =>
      if k < k' then (k, v) :: (k', v') :: rest
      else if k = k' then (k, v) :: rest
      else (k', v') :: btreeInsert k v rest

/-- Lookup in the association-list model of `BTreeMap`. -/
def btreeGet {α : Type} (k : Nat) (m : List (Nat × α)) : Option α :=
  (m.find? fun p => p.1 == k).map Prod.snd

/-- The search-engine state the empty-path claim observes: the paths table
and the hash-to-path lookup (engines/search/mod.rs). -/
structure SearchEngineModel where
  path_lookup : List (Nat × SearchPath)
  paths : List SearchPath
deriving DecidableEq

namespace SearchEngine

/-- The `path_lookup` construction shared verbatim by
`SearchEngine::from_directory` (engines/search/mod.rs) and
`ArchiveUserTables::read_options` (archive.rs): every path whose `full_path`
equals `Hash40::new("")` is filtered out, the rest are collected into a
`BTreeMap` keyed by `full_path`. -/
def build_path_lookup (paths : List SearchPath) : List (Nat × SearchPath) :=
  paths.foldl
    (fun m cell =>
      if cell.full_path = hash40 [] then m else btreeInsert cell.full_path cell m)
    []

/-- Engine construction from a parsed paths table: the table is stored as-is
and the lookup is generated (engines/search/mod.rs, archive.rs). -/
def from_paths (paths : List SearchPath) : SearchEngineModel :=
  { path_lookup := build_path_lookup paths, paths := paths }

/-- `SearchEngine::get_path` (engines/search/mod.rs):
`self.path_lookup.get(&hash)`. -/
def get_path (e : SearchEngineModel) (hash : Nat) : Option SearchPath :=
  btreeGet hash e.path_lookup

end SearchEngine

/-- `ArchiveTablesHeader` (archive.rs); its `binrw` form carries a
`magic = 0x10u32` followed by these three `u32` fields. -/
structure ArchiveTablesHeader where
  decompressed_size : Nat
  compressed_size : Nat
  compressed_section_size : Nat
deriving DecidableEq

/-- A `u32` as four little-endian bytes. -/
def u32le (n : Nat) : List Nat :=
  [n % 256, n / 2 ^ 8 % 256, n / 2 ^ 16 % 256, n / 2 ^ 24 % 256]

namespace ArchiveTablesHeader

/-- The serialized form of an `ArchiveTablesHeader`: the `0x10u32` magic and
the three little-endian `u32` size fields. -/
def toBytes (h : ArchiveTablesHeader) : List Nat :=
  u32le 0x10 ++ u32le h.decompressed_size ++ u32le h.compressed_size ++
    u32le h.compressed_section_size

end ArchiveTablesHeader

/-- The output of the section-emission tail of `Archive::write_tables`:
the bytes appended to the output writer and the two section start offsets
the function returns. -/
structure WriteTablesSections where
  bytes : List Nat
  non_user_fs_start : Nat
  user_fs_start : Nat
  non_user_header : ArchiveTablesHeader
  user_header : ArchiveTablesHeader
deriving DecidableEq

namespace Archive

/-- The tail of `Archive::write_tables` (archive.rs:656-685), starting after
both table bodies have been serialized and compressed: compute each section
size by rounding the compressed length up to the next multiple of 8, record
the stream position, write the `ArchiveTablesHeader`, write the compressed
bytes, and repeat for the user section. `start` is the stream position of
the writer on entry; compression is an external collaborator, so the
function takes the compressed byte strings as inputs. -/
def write_tables_sections (start : Nat)
    (decompressed_non_user_len : Nat) (compressed_non_user_data : List Nat)
    (decompressed_user_data_len : Nat) (compressed_user_data : List Nat) :
    WriteTablesSections :=
  let compressed_non_user_section_size :=
    if compressed_non_user_data.length % 8 ≠ 0 then
      compressed_non_user_data.length + (8 - compressed_non_user_data.length % 8)
    else compressed_non_user_data.length
  let compressed_user_section_size :=
    if compressed_user_data.length % 8 ≠ 0 then
      compressed_user_data.length + (8 - compressed_user_data.length % 8)
    else compressed_user_data.length
  let non_user_fs_start := start
  let non_user_header : ArchiveTablesHeader :=
    { decompressed_size := decompressed_non_user_len
      compressed_size := compressed_non_user_data.length
      compressed_section_size := compressed_non_user_section_size }
  let user_fs_start :=
    start + non_user_header.toBytes.length + compressed_non_user_data.length
  let user_header : ArchiveTablesHeader :=
    { decompressed_size := decompressed_user_data_len
      compressed_size := compressed_user_data.length
      compressed_section_size := compressed_user_section_size }
  { bytes := non_user_header.toBytes ++ compressed_non_user_data ++
      user_header.toBytes ++ compressed_user_data
    non_user_fs_start := non_user_fs_start
    user_fs_start := user_fs_start
    non_user_header := non_user_header
    user_header := user_header }

end Archive

/-- `Metadata` (engines/packaged/types.rs). -/
structure Metadata where
  group_offset : Nat
  compressed_size : Nat
  decompressed_size : Nat
  is_standard_zstd : Bool
  is_compressed : Bool
  is_regional_versioned_data : Bool
  is_localized_versioned_data : Bool
deriving DecidableEq

namespace Metadata

/-- `Metadata::new` (engines/packaged/types.rs): the size fields start at
`usize::MAX` and every flag at `false`. -/
def new : Metadata :=
  { group_offset := 2 ^ 64 - 1
    compressed_size := 2 ^ 64 - 1
    decompressed_size := 2 ^ 64 - 1
    is_standard_zstd := false
    is_compressed := false
    is_regional_versioned_data := false
    is_localized_versioned_data := false }

end Metadata

/-- `TableContiguousReference<T>` (table.rs): either a resolved vector of
cells or an unresolved index range; cells are modelled by their values. -/
inductive TableContiguousReference (α : Type) where
  | Resolved (cells : List α)
  | Unresolved (range_start range_stop : Nat)
deriving DecidableEq

namespace TableContiguousReference

/-- `TableContiguousReference::invalid` (table.rs). -/
def invalid {α : Type} : TableContiguousReference α :=
  .Unresolved INVALID_INDEX INVALID_INDEX

/-- `cells()` of the reference set (table.rs): panics when unresolved,
modelled by `none`. -/
def cells? {α : Type} : TableContiguousReference α → Option (List α)
  | .Resolved cells => some cells
  | .Unresolved _ _ => Option.none

end TableContiguousReference

/-- `Descriptor` as the add-file claims observe it (engines/packaged/types.rs):
a fresh descriptor's group reference and its `load_args` (`Owned` with no
patch, from `DescriptorLoadArguments::new`) are never read back by these
claims, so only the optional metadata reference is carried, resolved cells
being modelled by their values. -/
structure Descriptor where
  metadata : Option Metadata
deriving DecidableEq

namespace Descriptor

/-- `Descriptor::new` (engines/packaged/types.rs): metadata starts as `None`. -/
def new : Descriptor := { metadata := Option.none }

/-- `set_metadata` (the `expose_reference!` setter, table.rs). -/
def set_metadata (d : Descriptor) (m : Metadata) : Descriptor :=
  { d with metadata := some m }

end Descriptor

/-- `Info` (engines/packaged/types.rs) with the fields the add-file claims
observe; the `path` cell set by `set_path` is carried by value, the
`link` cell (pure cross-wiring, never read back by these claims) is not
carried. -/
structure Info (Path : Type) where
  is_regular_file : Bool
  is_graphics_archive : Bool
  is_localized : Bool
  is_regional : Bool
  is_shared : Bool
  is_unknown_flag : Bool
  path : Option Path
  descriptors : TableContiguousReference Descriptor
deriving DecidableEq

namespace Info

/-- `Info::new` (engines/packaged/types.rs): every reference invalid,
`is_regular_file` true, every other flag false. -/
def new {Path : Type} : Info Path :=
  { is_regular_file := true
    is_graphics_archive := false
    is_localized := false
    is_regional := false
    is_shared := false
    is_unknown_flag := false
    path := Option.none
    descriptors := TableContiguousReference.invalid }

end Info

/-- `Path` of the packaged filesystem (engines/packaged/types.rs) with the
fields the add-file claims observe; the `link` and `versioned_file`
references of a fresh path stay invalid/absent throughout `add_file` except
for the `set_link` cross-wiring, which these claims never read back. -/
structure Path where
  full_path : Nat
  extension : Nat
  parent : Nat
  file_name : Nat
deriving DecidableEq

/-- `GRAPHICS_ARCHIVE_EXTENSIONS` (engines/packaged/types.rs). -/
def GRAPHICS_ARCHIVE_EXTENSIONS : List Nat :=
  [hash40 ("nutexb".toList), hash40 ("arc".toList),
   hash40 ("bntx".toList), hash40 ("eff".toList)]

/-- Splits a character list at the LAST occurrence of `c` into the part
before and the part after it; `none` when `c` does not occur. -/
def splitLastOn (c : Char) : List Char → Option (List Char × List Char)
  | [] => Option.none
  | x :: xs =>
      match splitLastOn c xs with
      | some (before, after) => some (x :: before, after)
      | Option.none => if x = c then some ([], xs) else Option.none

namespace Path

/-- `<Path as FromStr>::from_str` (engines/packaged/types.rs), which hashes
the whole string, its `camino` parent, file name and extension. The
`camino`/`std` path decomposition is modelled for the plain relative
`dir/name.ext` shapes these claims exercise: the parent is everything before
the last `/` (empty for a single component), the file name everything after
it, and the extension the part of the file name after its last `.`, absent
when the file name has no `.` or only a leading one. `none` models the
`Err(_)` cases (`MissingParent`, `MissingFileName`, `MissingExtension`). -/
def from_str (s : List Char) : Option Path :=
  if s = [] ∨ s = [ '/' ] then Option.none
  else
    let split := match splitLastOn '/' s with
      | some (before, after) => (before, after)
      | Option.none => ([], s)
    if split.2 = [] then Option.none
    else
      match splitLastOn '.' split.2 with
      | Option.none => Option.none
      | some (base, ext) =>
          if base = [] then Option.none
          else some { full_path := hash40 s
                      extension := hash40 ext
                      parent := hash40 split.1
                      file_name := hash40 split.2 }

/-- `Path::has_graphics_archive_extension` (engines/packaged/types.rs):
`GRAPHICS_ARCHIVE_EXTENSIONS.iter().any(|ext| self.extension == *ext)`. -/
def has_graphics_archive_extension (p : Path) : Bool :=
  GRAPHICS_ARCHIVE_EXTENSIONS.any fun ext => p.extension == ext

end Path

/-- `GroupFileReference` (engines/packaged/types.rs): the files of a group
are either a metadata range (metadata-group) or an info range (info-group);
info cells are modelled by table indices since the add-file claims never
read them. -/
inductive GroupFileReference where
  | Metadata (cells : List Snarc.Metadata)
  | Info (cells : List Nat)
  | Unresolved (range_start range_stop : Nat)
deriving DecidableEq

/-- `Group` (engines/packaged/types.rs) with the fields the add-file claims
observe. -/
structure Group where
  files : GroupFileReference
deriving DecidableEq

namespace Group

/-- `Group::is_metadata_group` (engines/packaged/types.rs):
`self.files.is_metadata()`. -/
def is_metadata_group (g : Group) : Bool :=
  match g.files with
  | .Metadata _ => true
  | _ => false

/-- `group.metadatas_mut().push(cell)` (engines/packaged/types.rs plus the
`multi_reference!` set accessor in table.rs): `metadatas_mut` panics when the
files reference is unresolved or holds the `Info` variant, modelled by
`none`; otherwise the metadata cell is appended. -/
def metadatas_mut_push (g : Group) (m : Metadata) : Option Group :=
  match g.files with
  | .Metadata cells => some { files := .Metadata (cells ++ [m]) }
  | _ => Option.none

end Group

/-- `Package` (engines/packaged/mod.rs types) with the fields the add-file
claims observe. -/
structure Package where
  full_path : Nat
  groups : TableContiguousReference Group
  infos : TableContiguousReference (Info Path)
deriving DecidableEq

/-- `BucketMap<V>` (engines/packaged/bucket_map.rs): a vector of buckets,
each an ordered map by hash; `hash % bucket_count` selects the bucket. -/
structure BucketMap (V : Type) where
  buckets : List (List (Nat × V))
deriving DecidableEq

namespace BucketMap

/-- `BucketMap::bucket_for_hash`: `hash.0 as usize % self.0.len()`. -/
def bucket_for_hash {V : Type} (m : BucketMap V) (hash : Nat) : Nat :=
  hash % m.buckets.length

/-- `BucketMap::get`: `self.0[self.bucket_for_hash(hash)].get(&hash)`. With
zero buckets the Rust modulo panics; the model returns `none`, which no
claim settled here exercises. -/
def get {V : Type} (m : BucketMap V) (hash : Nat) : Option V :=
  match m.buckets[m.bucket_for_hash hash]? with
  | some bucket => btreeGet hash bucket
  | Option.none => Option.none

/-- `BucketMap::insert`: insert into the bucket selected by the hash;
`none` models the panic on indexing an empty bucket vector. -/
def insert {V : Type} (m : BucketMap V) (hash : Nat) (v : V) :
    Option (BucketMap V) :=
  match m.buckets[m.bucket_for_hash hash]? with
  | some bucket =>
      some { buckets := m.buckets.set (m.bucket_for_hash hash) (btreeInsert hash v bucket) }
  | Option.none => Option.none

end BucketMap

/-- `PackagedEngine` (engines/packaged/mod.rs) with the state the add-file
claims observe: the package lookup (a `BTreeMap` of shared package cells,
modelled as an association list of package values) and the file lookup.
The flat tables duplicate the cells reachable from the lookups and are not
carried. -/
structure PackagedEngine where
  package_lookup : List (Nat × Package)
  file_lookup : BucketMap Path
deriving DecidableEq

namespace PackagedEngine

/-- `PackagedEngine::get_file` (engines/packaged/mod.rs):
`self.file_lookup.get(hash.to_hash())`. -/
def get_file (e : PackagedEngine) (hash : Nat) : Option Path :=
  e.file_lookup.get hash

/-- `PackagedEngine::has_file` (engines/packaged/mod.rs):
`self.get_file(hash).is_some()`. -/
def has_file (e : PackagedEngine) (hash : Nat) : Bool :=
  (e.get_file hash).isSome

/-- `PackagedEngine::add_file` (engines/packaged/mod.rs). `none` models each
panicking exit: the file already exists, the package does not exist, the
located package's `groups.cells()[0]` access (unresolved reference or empty
range), the `metadatas_mut` push on a non-metadata first group, the
`Path::from_str(file).unwrap()`, the `file_lookup.insert` on an engine with
no buckets, and the `infos.push` on an unresolved infos reference. The
fresh descriptor/link cross-wiring that the claims never read back
(`set_group`, `set_link`, `set_info`) is not carried by the model. -/
def add_file (e : PackagedEngine) (file : List Char) (package : Nat) :
    Option (PackagedEngine × Info Path) :=
  if e.has_file (hash40 file) then Option.none
  else
    match btreeGet package e.package_lookup with
    | Option.none => Option.none
    | some pkg =>
      let descriptor := Descriptor.new.set_metadata Metadata.new
      match pkg.groups.cells? with
      | Option.none => Option.none
      | some gcells =>
        match gcells with
        | [] => Option.none
        | g0 :: grest =>
          match g0.metadatas_mut_push Metadata.new with
          | Option.none => Option.none
          | some g0' =>
            match Path.from_str file with
            | Option.none => Option.none
            | some path =>
              let info : Info Path :=
                { (Info.new : Info Path) with
                  descriptors := .Resolved [descriptor]
                  is_graphics_archive := path.has_graphics_archive_extension
                  is_regular_file := !path.has_graphics_archive_extension
                  path := some path }
              match e.file_lookup.insert path.full_path path with
              | Option.none => Option.none
              | some file_lookup' =>
                match pkg.infos.cells? with
                | Option.none => Option.none
                | some icells =>
                  let pkg' : Package :=
                    { pkg with
                      groups := .Resolved (g0' :: grest)
                      infos := .Resolved (icells ++ [info]) }
                  some ({ package_lookup := btreeInsert package pkg' e.package_lookup
                          file_lookup := file_lookup' }, info)

end PackagedEngine

/-- The file path of the add-file surface claim. -/
def fileFooBarNutexb : List Char := "foo/bar.nutexb".toList

/-- The `Path` record `Path::from_str("foo/bar.nutexb")` produces. -/
def pathFooBarNutexb : Path :=
  { full_path := hash40 fileFooBarNutexb
    extension := hash40 ("nutexb".toList)
    parent := hash40 ("foo".toList)
    file_name := hash40 ("bar.nutexb".toList) }

/-- A one-package engine used as the concrete witness input: package hash
100, a resolved metadata first group, resolved empty infos, one empty
bucket. -/
def witnessEngine : PackagedEngine :=
  { package_lookup :=
      [(100, { full_path := 100
               groups := .Resolved [{ files := .Metadata [] }]
               infos := .Resolved [] })]
    file_lookup := { buckets := [[]] } }

/-- The result of adding `"foo/bar.nutexb"` to the witness engine. -/
def witnessAddFileResult : Option (PackagedEngine × Info Path) :=
  PackagedEngine.add_file witnessEngine fileFooBarNutexb 100

/-- The engine state after the witness `add_file` call. -/
def witnessEngineAfter : PackagedEngine :=
  (witnessAddFileResult.get (by decide)).1

/-- The `Info` cell returned by the witness `add_file` call. -/
def witnessInfo : Info Path :=
  (witnessAddFileResult.get (by decide)).2

theorem hash_mask_eq : HASH_MASK = 2 ^ 40 - 1 := by norm_num [HASH_MASK]

theorem not_hash_mask_eq : NOT_HASH_MASK = (2 ^ 24 - 1) <<< 40 := by
  norm_num [NOT_HASH_MASK, Nat.shiftLeft_eq]

theorem and_hash_mask (k : Nat) : k &&& HASH_MASK = k % 2 ^ 40 := by
  rw [hash_mask_eq]
  exact Nat.and_pow_two_sub_one_eq_mod k 40

theorem low_and_not_mask {h : Nat} (hh : h < 2 ^ 40) : h &&& NOT_HASH_MASK = 0 := by
  apply Nat.eq_of_testBit_eq
  intro j
  rw [not_hash_mask_eq]
  simp only [Nat.testBit_and, Nat.testBit_shiftLeft, Nat.testBit_two_pow_sub_one,
    Nat.zero_testBit]
  by_cases hj : 40 ≤ j
  · have hlt : h < 2 ^ j := lt_of_lt_of_le hh (Nat.pow_le_pow_right (by norm_num) hj)
    simp [Nat.testBit_lt_two_pow hlt]
  · simp [hj]

theorem high_and_not_mask {i : Nat} (hi : i < 2 ^ 24) :
    (i <<< 40) &&& NOT_HASH_MASK = i <<< 40 := by
  apply Nat.eq_of_testBit_eq
  intro j
  rw [not_hash_mask_eq]
  simp only [Nat.testBit_and, Nat.testBit_shiftLeft, Nat.testBit_two_pow_sub_one]
  by_cases hj : 40 ≤ j
  · by_cases hij : j - 40 < 24
    · simp [hj, hij]
    · have hlt : i < 2 ^ (j - 40) :=
        lt_of_lt_of_le hi (Nat.pow_le_pow_right (by norm_num) (by omega))
      simp [Nat.testBit_lt_two_pow hlt]
  · simp [hj]

theorem shiftLeft40_lt {i : Nat} (hi : i < 2 ^ 24) : i <<< 40 < 2 ^ 64 := by
  rw [Nat.shiftLeft_eq]
  calc i * 2 ^ 40 < 2 ^ 24 * 2 ^ 40 :=
        (Nat.mul_lt_mul_right (by norm_num : (0 : Nat) < 2 ^ 40)).mpr hi
    _ = 2 ^ 64 := by norm_num

theorem shiftLeft40_mod64 {i : Nat} (hi : i < 2 ^ 24) :
    (i <<< 40) % 2 ^ 64 = i <<< 40 :=
  Nat.mod_eq_of_lt (shiftLeft40_lt hi)

theorem shiftLeft40_and_mask (i : Nat) : (i <<< 40) &&& HASH_MASK = 0 := by
  rw [and_hash_mask, Nat.shiftLeft_eq, Nat.mul_mod_left]

theorem shiftLeft40_shiftRight40 (i : Nat) : (i <<< 40) >>> 40 = i := by
  rw [Nat.shiftLeft_eq, Nat.shiftRight_eq_div_pow]
  exact Nat.mul_div_cancel i (by norm_num)

/-- C5. HashKey symmetry: packing a 40-bit hash with a 24-bit index and
extracting either half returns it unchanged, `set_hash` leaves the index
untouched, and `set_index` leaves the hash untouched, provided the new hash
fits in 40 bits and the new index in 24 bits. -/
theorem c5_hash_key_symmetry (h i k h2 i2 : Nat)
    (hh : h < 2 ^ 40) (hi : i < 2 ^ 24) (hh2 : h2 < 2 ^ 40) (hi2 : i2 < 2 ^ 24) :
    HashKey.hash (HashKey.new h i) = h ∧
    HashKey.index (HashKey.new h i) = i ∧
    HashKey.index (HashKey.set_hash k h2) = HashKey.index k ∧
    HashKey.hash (HashKey.set_index k i2) = HashKey.hash k := by
  refine ⟨?_, ?_, ?_, ?_⟩
  · rw [HashKey.hash, HashKey.new, shiftLeft40_mod64 hi, Nat.and_distrib_right,
      shiftLeft40_and_mask, Nat.or_zero, and_hash_mask]
    exact Nat.mod_eq_of_lt hh
  · rw [HashKey.index, HashKey.new, shiftLeft40_mod64 hi, Nat.and_distrib_right,
      low_and_not_mask hh, high_and_not_mask hi, Nat.zero_or,
      shiftLeft40_shiftRight40]
  · rw [HashKey.index, HashKey.index, HashKey.set_hash, Nat.and_distrib_right,
      low_and_not_mask hh2, Nat.or_zero, Nat.and_assoc, Nat.and_self]
  · rw [HashKey.hash, HashKey.hash, HashKey.set_index, shiftLeft40_mod64 hi2,
      Nat.and_distrib_right, shiftLeft40_and_mask, Nat.or_zero, Nat.and_assoc,
      Nat.and_self]

/-- C5 witness: the symmetry theorem at concrete inputs. -/
theorem c5_hash_key_symmetry_witness :
    HashKey.hash (HashKey.new 5 3) = 5 ∧
    HashKey.index (HashKey.new 5 3) = 3 ∧
    HashKey.index (HashKey.set_hash 0x0123456789ABCDEF 7) =
      HashKey.index 0x0123456789ABCDEF ∧
    HashKey.hash (HashKey.set_index 0x0123456789ABCDEF 9) =
      HashKey.hash 0x0123456789ABCDEF :=
  c5_hash_key_symmetry 5 3 0x0123456789ABCDEF 7 9
    (by norm_num) (by norm_num) (by norm_num) (by norm_num)

/-- C4. The `changed_this_patch` flag does NOT survive a write/re-parse
cycle in the `false` case: the writer's `1 << 24` lands at bit 64 of the
packed `u64` and is discarded, so the written index field is zero and the
parser (which tests `index() == 0`) reports `changed_this_patch = true` for
every 40-bit path hash, whichever value was written. -/
theorem c4_changed_this_patch_lost (path : Nat) (hpath : path < 2 ^ 40) :
    VersionedFile.parse_changed (VersionedFile.write_key path false) = true ∧
    VersionedFile.parse_changed (VersionedFile.write_key path true) = true := by
  have hkey : ∀ b : Bool, VersionedFile.write_key path b = path := by
    intro b
    cases b <;> simp [VersionedFile.write_key, HashKey.new]
  have hidx : HashKey.index path = 0 := by
    rw [HashKey.index, low_and_not_mask hpath]
    rfl
  constructor <;> rw [hkey, VersionedFile.parse_changed, hidx] <;> rfl

/-- C4 witness: evaluation at the failing input `path = 0x1234`,
`changed_this_patch = false` (and at the working `true` case). -/
theorem c4_changed_this_patch_lost_witness :
    VersionedFile.parse_changed (VersionedFile.write_key 0x1234 false) = true ∧
    VersionedFile.parse_changed (VersionedFile.write_key 0x1234 true) = true :=
  c4_changed_this_patch_lost 0x1234 (by norm_num)

/-- C6 counterexample: at flag word 3 the parser aborts through the
`unreachable!()` arm, which is a panic, not the recoverable format error
the claim promises. -/
theorem c6_stream_flag_counterexample :
    StreamPath.read 0 3 = .panicked ∧
    StreamPathReadOutcome.panicked ≠ .formatError := by
  constructor
  · rfl
  · intro h
    exact StreamPathReadOutcome.noConfusion h

/-- C6 as amended. The links reference of a parsed `StreamPath` has length
1, 14 or 5 exactly when the flag word is 0, 1 or 2 respectively; any other
flag value makes the parser abort via `unreachable!()` (a panic) rather
than return a format error. -/
theorem c6_stream_link_cardinality (path_and_link flags : Nat) :
    (StreamPath.links_len (StreamPath.read path_and_link flags) = some 1 ↔ flags = 0) ∧
    (StreamPath.links_len (StreamPath.read path_and_link flags) = some 14 ↔ flags = 1) ∧
    (StreamPath.links_len (StreamPath.read path_and_link flags) = some 5 ↔ flags = 2) ∧
    (flags ≠ 0 → flags ≠ 1 → flags ≠ 2 →
      StreamPath.read path_and_link flags = .panicked) := by
  unfold StreamPath.read StreamPath.links_len
  split_ifs with h0 h1 h2 <;> simp_all

/-- C6 witness: the amended theorem applied at flag word 7. -/
theorem c6_stream_link_cardinality_witness :
    StreamPath.read 0 7 = .panicked :=
  (c6_stream_link_cardinality 0 7).2.2.2 (by norm_num) (by norm_num) (by norm_num)

/-- C3 counterexample: with one package and two groups, the stored owner
index 1 resolves to `groups[1]`, not to `groups[1 - packages.len()] =
groups[0]` as the claim states. -/
theorem c3_link_owner_counterexample :
    LinkOwnerReference.resolve 1 [10] [20, 21] = some (.Group 21) ∧
    LinkOwnerReference.resolve 1 [10] [20, 21] ≠ some (.Group 20) := by
  constructor
  · rfl
  · intro h
    simp [LinkOwnerReference.resolve] at h

/-- C3 as amended. A stored owner index below the package count resolves to
that package; otherwise it resolves to the group at the RAW index in the
groups table (the index is not biased by the package count). -/
theorem c3_link_owner_discrimination (index : Nat) (packages groups : List Nat) :
    (∀ h : index < packages.length,
      LinkOwnerReference.resolve index packages groups =
        some (.Package (packages.get ⟨index, h⟩))) ∧
    (packages.length ≤ index → ∀ h : index < groups.length,
      LinkOwnerReference.resolve index packages groups =
        some (.Group (groups.get ⟨index, h⟩))) := by
  constructor
  · intro h
    simp [LinkOwnerReference.resolve, h, List.getElem?_eq_getElem]
  · intro hle h
    simp [LinkOwnerReference.resolve, Nat.not_lt.mpr hle, List.getElem?_eq_getElem h]

/-- C3 witness: the amended theorem applied at owner index 1 with one
package and two groups. -/
theorem c3_link_owner_discrimination_witness :
    LinkOwnerReference.resolve 1 [10] [20, 21] = some (.Group 21) :=
  (c3_link_owner_discrimination 1 [10] [20, 21]).2 (by norm_num) (by norm_num)

/-- C2 counterexample: a group whose on-disk `sub_package` field holds the
`0xFFFFFF` sentinel (read as `None`) is classified as a metadata-group
(`is_info_group = false`), while the claim calls every group with an absent
`sub_package` an info-group. -/
theorem c2_group_classification_counterexample :
    Group.resolve_classify INVALID_INDEX32 1 [5] [6, 7] = some (false, .none) ∧
    claimInfoGroup INVALID_INDEX32 1 = true := by
  constructor <;> rfl

/-- C2 as amended. After parse and resolve, a group is an info-group iff
its raw `sub_package` index was present (not the `0xFFFFFF` sentinel) and
is either zero or the group's own index; the sentinel therefore yields a
metadata-group. A group is a version-group iff the raw index was present
and zero (the only case whose resolved `sub_package` is `None` while the
group is an info-group). -/
theorem c2_group_classification (sub_package_raw self_index : Nat)
    (packages groups : List Nat) (is_info_group : Bool)
    (r : GroupSubPackageReference)
    (h : Group.resolve_classify sub_package_raw self_index packages groups =
      some (is_info_group, r)) :
    is_info_group = (!(sub_package_raw == INVALID_INDEX32) &&
      (sub_package_raw == 0 || sub_package_raw == self_index)) ∧
    Group.is_version_after_resolve is_info_group r =
      (!(sub_package_raw == INVALID_INDEX32) && sub_package_raw == 0) := by
  by_cases hs : sub_package_raw = INVALID_INDEX32
  · have hr : Group.resolve_classify sub_package_raw self_index packages groups =
        some (false, .none) := by
      simp [Group.resolve_classify, Group.read_sub_package,
        GroupSubPackageReference.resolve, hs]
    have hbr : (is_info_group, r) = (false, GroupSubPackageReference.none) :=
      Option.some.inj (h.symm.trans hr)
    have hb : is_info_group = false := congrArg Prod.fst hbr
    have hrr : r = .none := congrArg Prod.snd hbr
    subst hb; subst hrr
    exact ⟨by simp [hs], by simp [hs, Group.is_version_after_resolve]⟩
  · have hsb : (sub_package_raw == INVALID_INDEX32) = false := by simp [hs]
    by_cases h0 : sub_package_raw = 0
    · subst h0
      have hr : Group.resolve_classify 0 self_index packages groups =
          some (true, .none) := by
        simp [Group.resolve_classify, Group.read_sub_package,
          GroupSubPackageReference.resolve, hs]
      have hbr : (is_info_group, r) = (true, GroupSubPackageReference.none) :=
        Option.some.inj (h.symm.trans hr)
      have hb : is_info_group = true := congrArg Prod.fst hbr
      have hrr : r = .none := congrArg Prod.snd hbr
      subst hb; subst hrr
      exact ⟨by simp [hsb], by simp [hsb, Group.is_version_after_resolve,
        GroupSubPackageReference.is_none]⟩
    · have h0b : (sub_package_raw == 0) = false := by simp [h0]
      by_cases hp : sub_package_raw < packages.length
      · have hr : Group.resolve_classify sub_package_raw self_index packages groups =
            some ((sub_package_raw == 0 || sub_package_raw == self_index),
              .Package (packages.get ⟨sub_package_raw, hp⟩)) := by
          simp [Group.resolve_classify, Group.read_sub_package,
            GroupSubPackageReference.resolve, hs, h0, hp, List.getElem?_eq_getElem]
        have hbr := Option.some.inj (h.symm.trans hr)
        have hb : is_info_group = (sub_package_raw == 0 || sub_package_raw == self_index) :=
          congrArg Prod.fst hbr
        have hrr : r = .Package (packages.get ⟨sub_package_raw, hp⟩) :=
          congrArg Prod.snd hbr
        subst hb; subst hrr
        exact ⟨by simp [hsb, h0b], by simp [hsb, h0b,
          Group.is_version_after_resolve, GroupSubPackageReference.is_none]⟩
      · cases hc : groups[sub_package_raw]? with
        | none =>
            have hr : Group.resolve_classify sub_package_raw self_index packages groups =
                Option.none := by
              simp [Group.resolve_classify, Group.read_sub_package,
                GroupSubPackageReference.resolve, hs, h0, hp, hc]
            rw [hr] at h
            exact Option.noConfusion h
        | some c =>
            have hr : Group.resolve_classify sub_package_raw self_index packages groups =
                some ((sub_package_raw == 0 || sub_package_raw == self_index),
                  .Group c) := by
              simp [Group.resolve_classify, Group.read_sub_package,
                GroupSubPackageReference.resolve, hs, h0, hp, hc]
            have hbr := Option.some.inj (h.symm.trans hr)
            have hb : is_info_group =
                (sub_package_raw == 0 || sub_package_raw == self_index) :=
              congrArg Prod.fst hbr
            have hrr : r = .Group c := congrArg Prod.snd hbr
            subst hb; subst hrr
            exact ⟨by simp [hsb, h0b], by simp [hsb, h0b,
              Group.is_version_after_resolve, GroupSubPackageReference.is_none]⟩

/-- C2 witness: the amended theorem applied to a self-and-zero raw index 0,
which resolves to an absent `sub_package` and an info-group (hence a
version-group). -/
theorem c2_group_classification_witness :
    true = (!((0 : Nat) == INVALID_INDEX32) &&
      ((0 : Nat) == 0 || (0 : Nat) == 0)) ∧
    Group.is_version_after_resolve true .none =
      (!((0 : Nat) == INVALID_INDEX32) && (0 : Nat) == 0) :=
  c2_group_classification 0 0 [5] [6] true .none rfl

/-- C1: the round-trip identity fails at the `SearchPath` record level:
`SearchPath::write_options` emits `HashKey::new(self.full_path, is_folder)`
into the second word, the slot the parser reads the parent hash from, so a
write/re-parse cycle turns the parent of every search path into its own
`full_path`. Evaluated at a path with `full_path = 2`, `parent = 1`. -/
theorem c1_search_path_parent_not_round_tripped :
    (SearchPath.read_options (SearchPath.write_options
      { full_path := 2, parent := 1, name := 3, extension := 4,
        is_folder := false, next_index := Option.none })).map SearchPath.parent =
      some 2 ∧ (2 : Nat) ≠ 1 := by
  constructor
  · rfl
  · norm_num

/-- `(l₁ ++ l₂).drop l₁.length = l₂`. -/
theorem drop_len_append {α : Type} (a b : List α) : (a ++ b).drop a.length = b := by
  induction a with
  | nil => rfl
  | cons x xs ih => simp [ih]

/-- `(l₁ ++ l₂).take l₁.length = l₁`. -/
theorem take_len_append {α : Type} (a b : List α) : (a ++ b).take a.length = a := by
  induction a with
  | nil => rfl
  | cons x xs ih => simp [ih]

/-- A serialized `ArchiveTablesHeader` is 16 bytes. -/
theorem archive_tables_header_len (h : ArchiveTablesHeader) :
    h.toBytes.length = 16 := by
  simp [ArchiveTablesHeader.toBytes, u32le]

/-- Slicing 16 bytes out of `a ++ b ++ c ++ d` at offset `16 + b.length`
returns `c`, when `a` and `c` are 16 bytes long. -/
theorem slice_16 {α : Type} (a b c d : List α) (ha : a.length = 16)
    (hc : c.length = 16) :
    ((a ++ b ++ c ++ d).drop (16 + b.length)).take 16 = c := by
  have h1 : a ++ b ++ c ++ d = (a ++ b) ++ (c ++ d) := by
    simp [List.append_assoc]
  rw [h1, show 16 + b.length = (a ++ b).length from by simp [ha],
    drop_len_append, show (16 : Nat) = c.length from hc.symm, take_len_append]

/-- C8 counterexample: a 5-byte compressed non-user section gets
`compressed_section_size = 8` in its header, but the user-section header is
written at stream offset 21 = 0x10 + 5, immediately after the compressed
bytes, not at the rounded-up boundary 0x10 + 8 = 24. -/
theorem c8_padding_counterexample :
    (Archive.write_tables_sections 0 100 [1, 2, 3, 4, 5] 50
      [9]).non_user_header.compressed_section_size = 8 ∧
    (Archive.write_tables_sections 0 100 [1, 2, 3, 4, 5] 50 [9]).user_fs_start = 21 ∧
    (21 : Nat) ≠ 0 + 0x10 + 8 := by
  refine ⟨rfl, rfl, by norm_num⟩

/-- C8 as amended. The `compressed_section_size` field written in each
`ArchiveTablesHeader` is the compressed size rounded up to the next
multiple of 8 (confirmed); but no padding bytes are emitted: the
user-section header starts at `start + 0x10 + compressed_size`, immediately
after the compressed bytes, and the emitted stream is exactly header,
compressed bytes, header, compressed bytes. -/
theorem c8_compressed_section_size (start dn du : Nat) (cn cu : List Nat) :
    (Archive.write_tables_sections start dn cn du cu).non_user_header.compressed_section_size % 8 = 0 ∧
    cn.length ≤ (Archive.write_tables_sections start dn cn du cu).non_user_header.compressed_section_size ∧
    (Archive.write_tables_sections start dn cn du cu).non_user_header.compressed_section_size < cn.length + 8 ∧
    (Archive.write_tables_sections start dn cn du cu).user_fs_start = start + 0x10 + cn.length ∧
    ((Archive.write_tables_sections start dn cn du cu).bytes.drop (0x10 + cn.length)).take 0x10 =
      (Archive.write_tables_sections start dn cn du cu).user_header.toBytes := by
  have hsec : (Archive.write_tables_sections start dn cn du
      cu).non_user_header.compressed_section_size =
      if cn.length % 8 ≠ 0 then cn.length + (8 - cn.length % 8) else cn.length := rfl
  refine ⟨?_, ?_, ?_, ?_, ?_⟩
  · rw [hsec]; split_ifs with hmod <;> omega
  · rw [hsec]; split_ifs with hmod <;> omega
  · rw [hsec]; split_ifs with hmod <;> omega
  · show start + (Archive.write_tables_sections start dn cn du
        cu).non_user_header.toBytes.length + cn.length = start + 0x10 + cn.length
    rw [archive_tables_header_len]
  · exact slice_16 _ cn _ cu (archive_tables_header_len _) (archive_tables_header_len _)

theorem btreeGet_cons {α : Type} (k k2 : Nat) (v : α) (rest : List (Nat × α)) :
    btreeGet k2 ((k, v) :: rest) = if k = k2 then some v else btreeGet k2 rest := by
  by_cases h : k = k2
  · simp [btreeGet, List.find?_cons, h]
  · simp [btreeGet, List.find?_cons, h]

theorem btreeGet_insert_self {α : Type} (k : Nat) (v : α) (m : List (Nat × α)) :
    btreeGet k (btreeInsert k v m) = some v := by
  induction m with
  | nil => simp [btreeInsert, btreeGet_cons]
  | cons hd tl ih =>
      obtain ⟨k2, v2⟩ := hd
      unfold btreeInsert
      split_ifs with h1 h2
      · simp [btreeGet_cons]
      · simp [btreeGet_cons]
      · rw [btreeGet_cons, if_neg (by omega)]
        exact ih

theorem btreeGet_insert_ne {α : Type} (k k2 : Nat) (v : α) (m : List (Nat × α))
    (h : k2 ≠ k) : btreeGet k2 (btreeInsert k v m) = btreeGet k2 m := by
  induction m with
  | nil => simp [btreeInsert, btreeGet_cons, Ne.symm h]
  | cons hd tl ih =>
      obtain ⟨k3, v3⟩ := hd
      unfold btreeInsert
      split_ifs with h1 h2
      · rw [btreeGet_cons, if_neg (Ne.symm h)]
      · subst h2
        rw [btreeGet_cons, if_neg (Ne.symm h), btreeGet_cons, if_neg (Ne.symm h)]
      · rw [btreeGet_cons, btreeGet_cons]
        by_cases hk : k3 = k2
        · simp [hk]
        · simp [hk, ih]

theorem build_lookup_preserves_none (ps : List SearchPath) :
    ∀ acc : List (Nat × SearchPath), btreeGet (hash40 []) acc = Option.none →
      btreeGet (hash40 [])
        (ps.foldl (fun m cell =>
          if cell.full_path = hash40 [] then m
          else btreeInsert cell.full_path cell m) acc) = Option.none := by
  induction ps with
  | nil => intro acc h; simpa using h
  | cons p ps ih =>
      intro acc h
      rw [List.foldl_cons]
      by_cases hp : p.full_path = hash40 []
      · rw [if_pos hp]; exact ih acc h
      · rw [if_neg hp]
        refine ih _ ?_
        rw [btreeGet_insert_ne _ _ _ _ fun hh => hp hh.symm]
        exact h

theorem build_lookup_preserves_some (ps : List SearchPath) :
    ∀ (acc : List (Nat × SearchPath)) (k : Nat), (btreeGet k acc).isSome = true →
      (btreeGet k
        (ps.foldl (fun m cell =>
          if cell.full_path = hash40 [] then m
          else btreeInsert cell.full_path cell m) acc)).isSome = true := by
  induction ps with
  | nil => intro acc k h; simpa using h
  | cons p ps ih =>
      intro acc k h
      rw [List.foldl_cons]
      by_cases hp : p.full_path = hash40 []
      · rw [if_pos hp]; exact ih acc k h
      · rw [if_neg hp]
        refine ih _ k ?_
        by_cases hk : p.full_path = k
        · subst hk; rw [btreeGet_insert_self]; rfl
        · rw [btreeGet_insert_ne _ _ _ _ fun hh => hk hh.symm]; exact h

theorem build_lookup_mem_some (ps : List SearchPath) :
    ∀ (acc : List (Nat × SearchPath)) (p : SearchPath), p ∈ ps →
      p.full_path ≠ hash40 [] →
      (btreeGet p.full_path
        (ps.foldl (fun m cell =>
          if cell.full_path = hash40 [] then m
          else btreeInsert cell.full_path cell m) acc)).isSome = true := by
  induction ps with
  | nil => intro acc p hmem; exact absurd hmem (List.not_mem_nil p)
  | cons q qs ih =>
      intro acc p hmem hne
      rw [List.foldl_cons]
      rcases List.mem_cons.mp hmem with rfl | hmem2
      · rw [if_neg hne]
        apply build_lookup_preserves_some
        rw [btreeGet_insert_self]; rfl
      · by_cases hq : q.full_path = hash40 []
        · rw [if_pos hq]; exact ih _ p hmem2 hne
        · rw [if_neg hq]; exact ih _ p hmem2 hne

/-- C10. A search engine built from a parsed paths table keeps every path
in the table, never maps the empty-string hash in `path_lookup` (so
`get_path(hash40(""))` is always `None`), and every other path in the table
is retrievable by its `full_path` hash. -/
theorem c10_empty_path_exclusion (paths : List SearchPath) :
    (SearchEngine.from_paths paths).paths = paths ∧
    SearchEngine.get_path (SearchEngine.from_paths paths) (hash40 []) = Option.none ∧
    ∀ p, p ∈ paths → p.full_path ≠ hash40 [] →
      (SearchEngine.get_path (SearchEngine.from_paths paths) p.full_path).isSome = true := by
  refine ⟨rfl, ?_, ?_⟩
  · simp only [SearchEngine.get_path, SearchEngine.from_paths,
      SearchEngine.build_path_lookup]
    exact build_lookup_preserves_none paths [] rfl
  · intro p hmem hne
    simp only [SearchEngine.get_path, SearchEngine.from_paths,
      SearchEngine.build_path_lookup]
    exact build_lookup_mem_some paths [] p hmem hne

/-- C10 witness: a two-path table containing an empty-hash path and the
path with hash 7; the latter is retrievable. -/
theorem c10_empty_path_exclusion_witness :
    (SearchEngine.get_path (SearchEngine.from_paths
      [{ full_path := hash40 [], parent := 0, name := 0, extension := 0,
         is_folder := false, next_index := Option.none },
       { full_path := 7, parent := 1, name := 3, extension := 4,
         is_folder := false, next_index := Option.none }]) 7).isSome = true :=
  (c10_empty_path_exclusion
      [{ full_path := hash40 [], parent := 0, name := 0, extension := 0,
         is_folder := false, next_index := Option.none },
       { full_path := 7, parent := 1, name := 3, extension := 4,
         is_folder := false, next_index := Option.none }]).2.2
    { full_path := 7, parent := 1, name := 3, extension := 4,
      is_folder := false, next_index := Option.none }
    (by decide) (by decide)

theorem cells?_eq_some {α : Type} (t : TableContiguousReference α) (c : List α)
    (h : t.cells? = some c) : t = .Resolved c := by
  cases t with
  | Resolved cells =>
      rw [show cells = c from Option.some.inj h]
  | Unresolved a b => exact Option.noConfusion h

theorem bucket_map_get_insert_self {V : Type} (m m' : BucketMap V) (h : Nat) (v : V)
    (hins : m.insert h v = some m') : m'.get h = some v := by
  unfold BucketMap.insert at hins
  cases hb : m.buckets[m.bucket_for_hash h]? with
  | none => rw [hb] at hins; exact Option.noConfusion hins
  | some bucket =>
      rw [hb] at hins
      have hm' := (Option.some.inj hins).symm
      subst hm'
      have hlt : m.bucket_for_hash h < m.buckets.length := by
        by_contra hge
        rw [List.getElem?_eq_none (Nat.le_of_not_lt hge)] at hb
        exact Option.noConfusion hb
      unfold BucketMap.get BucketMap.bucket_for_hash
      simp only [List.length_set]
      rw [show h % m.buckets.length = m.bucket_for_hash h from rfl,
        List.getElem?_set_self hlt]
      exact btreeGet_insert_self h v bucket

theorem metadatas_mut_push_isSome (g : Group) (m : Metadata) :
    (g.metadatas_mut_push m).isSome = g.is_metadata_group := by
  cases g with
  | mk files => cases files <;> rfl

/-- C9. `add_file` completes only when the located package's first group is
a resolved metadata-group: success of `add_file` implies the package was
found, its groups reference was resolved and non-empty, and its first group
holds the `Metadata` files variant; and conversely, for a resolved
metadata-group the `metadatas_mut().push(..)` step (whose `Info`-variant arm
panics) cannot panic. -/
theorem c9_add_file_first_group_precondition (e : PackagedEngine)
    (file : List Char) (package : Nat) :
    ((PackagedEngine.add_file e file package).isSome = true →
      ∃ pkg g rest, btreeGet package e.package_lookup = some pkg ∧
        pkg.groups = TableContiguousReference.Resolved (g :: rest) ∧
        g.is_metadata_group = true) ∧
    (∀ (g : Group) (m : Metadata), g.is_metadata_group = true →
      (g.metadatas_mut_push m).isSome = true) := by
  constructor
  · intro h
    unfold PackagedEngine.add_file at h
    split at h
    · simp at h
    · split at h
      · simp at h
      · rename_i pkg h2
        split at h
        · simp at h
        · rename_i gcells h3
          split at h
          · simp at h
          · rename_i g0 grest
            split at h
            · simp at h
            · rename_i g0' h4
              refine ⟨pkg, g0, grest, h2, cells?_eq_some _ _ h3, ?_⟩
              have h5 : (g0.metadatas_mut_push Metadata.new).isSome = true := by
                rw [h4]; rfl
              rw [metadatas_mut_push_isSome] at h5
              exact h5
  · intro g m hg
    rw [metadatas_mut_push_isSome]
    exact hg

/-- C9 witness: the non-panic direction applied to a resolved empty
metadata-group. -/
theorem c9_add_file_first_group_precondition_witness :
    ((Group.mk (GroupFileReference.Metadata [])).metadatas_mut_push
      Metadata.new).isSome = true :=
  (c9_add_file_first_group_precondition witnessEngine fileFooBarNutexb 100).2
    (Group.mk (GroupFileReference.Metadata [])) Metadata.new rfl

/-- C7. After `add_file("foo/bar.nutexb", pkg)` on an engine that does not
contain that path: `has_file` of the path returns true; `get_file` returns
a `Path` whose extension is `hash40("nutexb")`; the returned `Info` has
`is_graphics_archive = true` and `is_regular_file = false`; and the new
`Info` appears in the infos of the located package. -/
theorem c7_add_file_surface (e : PackagedEngine) (package : Nat)
    (e' : PackagedEngine) (info : Info Path)
    (habsent : PackagedEngine.get_file e (hash40 fileFooBarNutexb) = Option.none)
    (h : PackagedEngine.add_file e fileFooBarNutexb package = some (e', info)) :
    PackagedEngine.has_file e' (hash40 fileFooBarNutexb) = true ∧
    (∃ p : Path, PackagedEngine.get_file e' (hash40 fileFooBarNutexb) = some p ∧
      p.extension = hash40 ("nutexb".toList)) ∧
    info.is_graphics_archive = true ∧
    info.is_regular_file = false ∧
    ∃ pkg2 : Package, btreeGet package e'.package_lookup = some pkg2 ∧
      ∃ cells : List (Info Path), pkg2.infos = .Resolved cells ∧ info ∈ cells := by
  have hfs : Path.from_str fileFooBarNutexb = some pathFooBarNutexb := by decide
  have hgfx : pathFooBarNutexb.has_graphics_archive_extension = true := by decide
  unfold PackagedEngine.add_file at h
  split at h
  · exact Option.noConfusion h
  · split at h
    · exact Option.noConfusion h
    · rename_i pkg h2
      split at h
      · exact Option.noConfusion h
      · rename_i gcells h3
        split at h
        · exact Option.noConfusion h
        · rename_i g0 grest
          split at h
          · exact Option.noConfusion h
          · rename_i g0' h4
            split at h
            · exact Option.noConfusion h
            · rename_i path hpath
              split at h
              · exact Option.noConfusion h
              · rename_i file_lookup' h5
                split at h
                · exact Option.noConfusion h
                · rename_i icells h6
                  have hP : path = pathFooBarNutexb :=
                    Option.some.inj (hpath.symm.trans hfs)
                  subst hP
                  have hpair := Option.some.inj h
                  have he' := congrArg Prod.fst hpair
                  have hinfo := congrArg Prod.snd hpair
                  subst he'
                  subst hinfo
                  have hget : file_lookup'.get pathFooBarNutexb.full_path =
                      some pathFooBarNutexb :=
                    bucket_map_get_insert_self _ _ _ _ h5
                  refine ⟨?_, ⟨pathFooBarNutexb, ?_, rfl⟩, ?_, ?_, ?_⟩
                  · simp only [PackagedEngine.has_file, PackagedEngine.get_file]
                    rw [show hash40 fileFooBarNutexb = pathFooBarNutexb.full_path
                      from rfl, hget]
                    rfl
                  · simp only [PackagedEngine.get_file]
                    rw [show hash40 fileFooBarNutexb = pathFooBarNutexb.full_path
                      from rfl, hget]
                  · simpa using hgfx
                  · simpa using hgfx
                  · refine ⟨_, btreeGet_insert_self package _ e.package_lookup, _,
                      rfl, ?_⟩
                    exact List.mem_append_right icells (List.mem_singleton.mpr rfl)

/-- C7 witness: the surface theorem at the concrete witness engine, whose
`add_file` result is computed by evaluation. -/
theorem c7_add_file_surface_witness :
    PackagedEngine.has_file witnessEngineAfter (hash40 fileFooBarNutexb) = true :=
  (c7_add_file_surface witnessEngine 100 witnessEngineAfter witnessInfo
    (by decide) (by decide)).1

end Snarc
